import Mathlib

/-!
Verification of the yarn-matching core of `yarn_matcher.py`.

Python floats are modelled as exact rationals (`ℚ`), optional values as
`Option`, and Python's falsy test on a number as comparison with `0`.
Strings are Lean `String`s; Python's substring operator `in` is modelled by
a structural contiguous-substring test on the underlying character lists.
-/

namespace YarnMatcher

/-- Test that `needle` is an initial segment of `hay` (character lists). -/
def charsStartsWith : List Char → List Char → Bool
  | [], _ => true
  | _ :: _, [] => false
  | a :: as, b :: bs => a == b && charsStartsWith as bs

/-- Contiguous-substring test on character lists: true when `needle` occurs
as a contiguous run inside `hay`. -/
def charsContains (needle : List Char) : List Char → Bool
  | [] => charsStartsWith needle []
  | b :: bs => charsStartsWith needle (b :: bs) || charsContains needle bs

/-- Model of the Python string membership test `needle in hay`. -/
def strIn (needle hay : String) : Bool :=
  charsContains needle.data hay.data

/-- Model of Python's `str.lower`, mapping each character to lower case. -/
def lowerStr (s : String) : String :=
  String.mk (s.data.map Char.toLower)

/-- The default grist tolerance of `grist_matches` (Python default `0.10`). -/
def default_tolerance : ℚ := 1 / 10

/-- `grist_matches` from `yarn_matcher.py`: false when either value is
falsy (zero), otherwise the two-sided tolerance interval test. -/
def grist_matches (target yarn tolerance : ℚ) : Bool :=
  if target = 0 ∨ yarn = 0 then false
  else decide (target * (1 - tolerance) ≤ yarn ∧ yarn ≤ target * (1 + tolerance))

/-- The list comprehension `[g for g in grists if g and g > 0]` of
`calculate_combined_grist`: keeps entries that are present, truthy and
positive. -/
def valid_grists (grists : List (Option ℚ)) : List ℚ :=
  grists.filterMap fun g =>
    match g with
    | none => none
    | some v => if ¬ v = 0 ∧ 0 < v then some v else none

/-- `calculate_combined_grist` from `yarn_matcher.py`: `None` when no valid
entries remain, else the harmonic rule `1 / sum(1/g)`. -/
def calculate_combined_grist (grists : List (Option ℚ)) : Option ℚ :=
  if valid_grists grists = [] then none
  else some (1 / ((valid_grists grists).map fun g => 1 / g).sum)

/-- The color vocabulary of `fuzzy_color_match`, in source order (note that it
contains both spellings `grey` and `gray`). -/
def colors : List String :=
  ["red", "blue", "green", "yellow", "orange", "purple", "pink",
   "brown", "black", "white", "grey", "gray", "cream", "beige", "navy",
   "teal", "coral", "burgundy", "maroon", "olive"]

/-- The Python truthiness test `c1_base and c2_base and c1_base == c2_base`
on the two `next(...)` results: both present, both non-empty strings, and
equal. -/
def base_hues_agree (c1_base c2_base : Option String) : Bool :=
  match c1_base, c2_base with
  | some b1, some b2 => !(b1 == "") && !(b2 == "") && b1 == b2
  | _, _ => false

/-- `fuzzy_color_match` from `yarn_matcher.py`: empty guard, then equality or
substring in either direction on the lowercased strings, then agreement of
the first vocabulary hue found in each, then the grey/gray special case. -/
def fuzzy_color_match (c1 c2 : String) : Bool :=
  if c1 = "" ∨ c2 = "" then false
  else if lowerStr c1 = lowerStr c2 ∨ strIn (lowerStr c1) (lowerStr c2)
      ∨ strIn (lowerStr c2) (lowerStr c1) then true
  else if base_hues_agree (colors.find? fun c => strIn c (lowerStr c1))
      (colors.find? fun c => strIn c (lowerStr c2)) then true
  else if (strIn "grey" (lowerStr c1) ∨ strIn "gray" (lowerStr c1))
      ∧ (strIn "grey" (lowerStr c2) ∨ strIn "gray" (lowerStr c2)) then true
  else false

/-- The hue vocabulary exactly as claim C6 lists it: nineteen entries, with
only the `grey` spelling and no `gray` entry. -/
def claim_colors : List String :=
  ["red", "blue", "green", "yellow", "orange", "purple", "pink",
   "brown", "black", "white", "grey", "cream", "beige", "navy",
   "teal", "coral", "burgundy", "maroon", "olive"]

/-- Base-hue agreement as claim C6 words it: the first vocabulary entry
occurring in each input exists for both and is the same. -/
def claim_base_agree (o1 o2 : Option String) : Bool :=
  match o1, o2 with
  | some b1, some b2 => b1 == b2
  | _, _ => false

/-- The ordered color-matching policy exactly as claim C6 states it,
parametrised by the hue vocabulary: (1) false on an empty input, (2) true on
case-insensitive equality or substring containment either way, (3) true when
the first vocabulary hue occurring in each input is the same, (4) true when
both contain either spelling of grey, (5) false otherwise. -/
def color_policy (vocab : List String) (c1 c2 : String) : Bool :=
  if c1 = "" ∨ c2 = "" then false
  else if lowerStr c1 = lowerStr c2 ∨ strIn (lowerStr c1) (lowerStr c2)
      ∨ strIn (lowerStr c2) (lowerStr c1) then true
  else if claim_base_agree (vocab.find? fun c => strIn c (lowerStr c1))
      (vocab.find? fun c => strIn c (lowerStr c2)) then true
  else if (strIn "grey" (lowerStr c1) ∨ strIn "gray" (lowerStr c1))
      ∧ (strIn "grey" (lowerStr c2) ∨ strIn "gray" (lowerStr c2)) then true
  else false

theorem colors_find_ne_empty {p : String → Bool} {b : String}
    (h : colors.find? p = some b) : (b == "") = false := by
  have hb := List.mem_of_find?_eq_some h
  fin_cases hb <;> rfl

theorem base_hues_agree_eq_claim (o1 o2 : Option String)
    (h1 : ∀ s, o1 = some s → (s == "") = false)
    (h2 : ∀ s, o2 = some s → (s == "") = false) :
    base_hues_agree o1 o2 = claim_base_agree o1 o2 := by
  rcases o1 with _ | b1 <;> rcases o2 with _ | b2 <;>
    simp only [base_hues_agree, claim_base_agree]
  rw [h1 b1 rfl, h2 b2 rfl]
  simp

theorem fuzzy_eq_policy (a b : String) :
    fuzzy_color_match a b = color_policy colors a b := by
  unfold fuzzy_color_match color_policy
  rw [base_hues_agree_eq_claim _ _ (fun s hs => colors_find_ne_empty hs)
    (fun s hs => colors_find_ne_empty hs)]

/-- C6 counterexample: the claim's nineteen-entry vocabulary (without the
`gray` spelling) resolves both "gray cream" and "pale cream" to the base hue
"cream" and declares them a match, but the code's vocabulary contains `gray`
before `cream`, so the code resolves "gray cream" to "gray" and returns
false on this input. -/
theorem fuzzy_color_match_claim_counterexample :
    color_policy claim_colors "gray cream" "pale cream" = true ∧
    fuzzy_color_match "gray cream" "pale cream" = false := by
  constructor
  · decide
  · decide

/-- C6 (amended): `fuzzy_color_match` follows exactly the claimed ordered
policy once the vocabulary is corrected to include the `gray` spelling
immediately after `grey`; in particular "Ocean Blue" matches "Navy Blue"
and "Red" does not match "Scarlet". Totality of the Lean function models
that the code never raises on free-text input. -/
theorem fuzzy_color_match_amended_spec :
    (∀ a b : String, fuzzy_color_match a b = color_policy colors a b) ∧
    fuzzy_color_match "Ocean Blue" "Navy Blue" = true ∧
    fuzzy_color_match "Red" "Scarlet" = false :=
  ⟨fuzzy_eq_policy, by decide, by decide⟩

/-- C4: `grist_matches` is false when either value is zero; otherwise it
holds exactly on the closed tolerance interval around the target; and with
the default tolerance 0.10, `target * 1.10` is accepted while
`target * 1.11` is rejected, for every positive target. -/
theorem grist_matches_spec (target yarn tolerance : ℚ) :
    ((target = 0 ∨ yarn = 0) → grist_matches target yarn tolerance = false) ∧
    (¬ target = 0 → ¬ yarn = 0 →
      (grist_matches target yarn tolerance = true ↔
        target * (1 - tolerance) ≤ yarn ∧ yarn ≤ target * (1 + tolerance))) ∧
    (0 < target →
      grist_matches target (target * (11 / 10)) default_tolerance = true ∧
      grist_matches target (target * (111 / 100)) default_tolerance = false) := by
  refine ⟨fun h => ?_, fun h1 h2 => ?_, fun hpos => ?_⟩
  · rw [grist_matches, if_pos h]
  · rw [grist_matches, if_neg (by tauto)]
    exact decide_eq_true_iff
  · have ht0 : target ≠ 0 := ne_of_gt hpos
    constructor
    · rw [grist_matches,
        if_neg (by push_neg; exact ⟨ht0, mul_ne_zero ht0 (by norm_num)⟩)]
      rw [decide_eq_true_iff]
      unfold default_tolerance
      constructor <;> nlinarith [hpos]
    · rw [grist_matches,
        if_neg (by push_neg; exact ⟨ht0, mul_ne_zero ht0 (by norm_num)⟩)]
      rw [decide_eq_false_iff_not]
      unfold default_tolerance
      intro hc
      nlinarith [hc.2, hpos]

/-- C4 witness: the three parts of `grist_matches_spec` instantiated at
concrete rationals. -/
theorem grist_matches_spec_witness :
    grist_matches 0 5 (1 / 10) = false ∧
    (grist_matches 2 (21 / 10) (1 / 10) = true ↔
      (2 : ℚ) * (1 - 1 / 10) ≤ 21 / 10 ∧ (21 : ℚ) / 10 ≤ 2 * (1 + 1 / 10)) ∧
    grist_matches 2 (2 * (11 / 10)) default_tolerance = true ∧
    grist_matches 2 (2 * (111 / 100)) default_tolerance = false :=
  ⟨(grist_matches_spec 0 5 (1 / 10)).1 (Or.inl rfl),
   (grist_matches_spec 2 (21 / 10) (1 / 10)).2.1 (by norm_num) (by norm_num),
   ((grist_matches_spec 2 5 (1 / 10)).2.2 (by norm_num)).1,
   ((grist_matches_spec 2 5 (1 / 10)).2.2 (by norm_num)).2⟩

/-- C5: the combined-grist calculator filters out absent or non-positive
entries, returns `none` when nothing remains, returns the harmonic value
`1 / sum(1/g)` otherwise; a single positive grist is returned unchanged and
two strands of grist 8 combine to grist 4. -/
theorem calculate_combined_grist_spec (grists : List (Option ℚ)) :
    (valid_grists grists = [] → calculate_combined_grist grists = none) ∧
    (¬ valid_grists grists = [] →
      calculate_combined_grist grists =
        some (1 / ((valid_grists grists).map fun g => 1 / g).sum)) ∧
    (∀ g : ℚ, 0 < g → calculate_combined_grist [some g] = some g) ∧
    calculate_combined_grist [some 8, some 8] = some 4 := by
  refine ⟨fun h => ?_, fun h => ?_, fun g hg => ?_, ?_⟩
  · rw [calculate_combined_grist, if_pos h]
  · rw [calculate_combined_grist, if_neg h]
  · have hv : valid_grists [some g] = [g] := by
      simp only [valid_grists, List.filterMap_cons, List.filterMap_nil]
      rw [if_pos ⟨ne_of_gt hg, hg⟩]
    rw [calculate_combined_grist, hv, if_neg (by simp)]
    simp only [List.map_cons, List.map_nil, List.sum_cons, List.sum_nil,
      add_zero, one_div_one_div]
  · have hv : valid_grists [some 8, some 8] = [8, 8] := by
      simp only [valid_grists, List.filterMap_cons, List.filterMap_nil]
      norm_num
    rw [calculate_combined_grist, hv, if_neg (by simp)]
    norm_num

/-- C5 witness: `calculate_combined_grist_spec` instantiated at concrete
lists, discharging each hypothesis. -/
theorem calculate_combined_grist_spec_witness :
    calculate_combined_grist [none] = none ∧
    calculate_combined_grist [some 2, some 2] =
      some (1 / ((valid_grists [some 2, some 2]).map fun g => 1 / g).sum) ∧
    calculate_combined_grist [some 2] = some 2 :=
  ⟨(calculate_combined_grist_spec [none]).1 rfl,
   (calculate_combined_grist_spec [some 2, some 2]).2.1
     (by
       have hv : valid_grists [some 2, some 2] = [2, 2] := by
         simp only [valid_grists, List.filterMap_cons, List.filterMap_nil]
         norm_num
       rw [hv]
       exact List.cons_ne_nil _ _),
   (calculate_combined_grist_spec [some 2]).2.2.1 2 (by norm_num)⟩

/-- A stash yarn as produced by `fetch_stash`: the grist is always present
(records without one are dropped at load time); the availability fields and
color may be missing or empty. -/
structure StashYarn where
  name : String
  grist : ℚ
  available_grams : Option ℚ
  available_yards : Option ℚ
  color : String
deriving DecidableEq

/-- Python truthiness of an optional number: `None` and `0` are falsy. -/
def truthyQ : Option ℚ → Bool
  | none => false
  | some v => !(v == 0)

/-- `yarn.get('available_yards') or 0`: available yardage, `None` becoming
zero. -/
def availOf (y : StashYarn) : ℚ :=
  y.available_yards.getD 0

/-- One entry of the single-yarn result lists: the source dict with keys
`yarn`, `grist_diff`, `have` and optional `needed` (the `have` key is named
`have_amt` because `have` is a Lean keyword). -/
structure MatchInfo where
  yarn : StashYarn
  grist_diff : ℚ
  have_amt : ℚ
  needed : Option ℚ
deriving DecidableEq

/-- The accumulation loop of `find_single_matches`, keeping stash order in
each of the three lists. -/
def single_scan (tg : ℚ) (tl : Option ℚ) : List StashYarn →
    List MatchInfo × List MatchInfo × List MatchInfo
  | [] => ([], [], [])
  | y :: rest =>
    let r := single_scan tg tl rest
    if grist_matches tg y.grist default_tolerance then
      let available := availOf y
      let info : MatchInfo :=
        { yarn := y, grist_diff := |tg - y.grist| / tg * 100,
          have_amt := available, needed := none }
      if ¬ truthyQ tl then
        if 0 < available then (r.1, r.2.1, info :: r.2.2) else r
      else if tl.getD 0 ≤ available then (info :: r.1, r.2.1, r.2.2)
      else (r.1, { info with needed := tl } :: r.2.1, r.2.2)
    else r

/-- Sort comparator for `enough` and `not_enough`: ascending `grist_diff`. -/
def le_diff (a b : MatchInfo) : Bool :=
  decide (a.grist_diff ≤ b.grist_diff)

/-- Sort comparator for `unknown`: the Python tuple key `(-have, grist_diff)`,
descending availability with ties broken by ascending `grist_diff`. -/
def le_unknown (a b : MatchInfo) : Bool :=
  decide (b.have_amt < a.have_amt ∨
    (a.have_amt = b.have_amt ∧ a.grist_diff ≤ b.grist_diff))

/-- `find_single_matches` from `yarn_matcher.py`: scan the stash, then sort
the three lists with the source's keys. -/
def find_single_matches (tg : ℚ) (tl : Option ℚ) (stash : List StashYarn) :
    List MatchInfo × List MatchInfo × List MatchInfo :=
  ((single_scan tg tl stash).1.mergeSort le_diff,
   (single_scan tg tl stash).2.1.mergeSort le_diff,
   (single_scan tg tl stash).2.2.mergeSort le_unknown)

/-- The result record for a grist-matching yarn as claim C1 describes it:
`grist_diff_pct = |target - grist| / target * 100` with the available
yardage recorded. -/
def base_info (tg : ℚ) (y : StashYarn) : MatchInfo :=
  { yarn := y, grist_diff := |tg - y.grist| / tg * 100,
    have_amt := availOf y, needed := none }

/-- Claim C1 routing rule for `enough`: grist matches, a target length is
given and the available yardage meets it. -/
def enough_entry (tg : ℚ) (tl : Option ℚ) (y : StashYarn) : Option MatchInfo :=
  if grist_matches tg y.grist default_tolerance = true ∧ truthyQ tl = true
      ∧ tl.getD 0 ≤ availOf y then some (base_info tg y)
  else none

/-- Claim C1 routing rule for `insufficient`: grist matches, a target length
is given and not met, with `needed = target_length` recorded. -/
def insufficient_entry (tg : ℚ) (tl : Option ℚ) (y : StashYarn) :
    Option MatchInfo :=
  if grist_matches tg y.grist default_tolerance = true ∧ truthyQ tl = true
      ∧ availOf y < tl.getD 0 then some { base_info tg y with needed := tl }
  else none

/-- Claim C1 routing rule for `unknown`: grist matches, no target length is
given, availability positive. -/
def unknown_entry (tg : ℚ) (tl : Option ℚ) (y : StashYarn) : Option MatchInfo :=
  if grist_matches tg y.grist default_tolerance = true ∧ ¬ truthyQ tl = true
      ∧ 0 < availOf y then some (base_info tg y)
  else none

theorem single_scan_eq (tg : ℚ) (tl : Option ℚ) (stash : List StashYarn) :
    single_scan tg tl stash =
      (stash.filterMap (enough_entry tg tl),
       stash.filterMap (insufficient_entry tg tl),
       stash.filterMap (unknown_entry tg tl)) := by
  induction stash with
  | nil => rfl
  | cons y rest ih =>
    simp only [single_scan, ih, List.filterMap_cons]
    by_cases hg : grist_matches tg y.grist default_tolerance = true
    · by_cases htl : truthyQ tl = true
      · by_cases hle : tl.getD 0 ≤ availOf y
        · simp [enough_entry, insufficient_entry, unknown_entry, base_info,
            hg, htl, hle, not_lt.mpr hle]
        · simp [enough_entry, insufficient_entry, unknown_entry, base_info,
            hg, htl, hle, lt_of_not_le hle]
      · by_cases hav : 0 < availOf y
        · simp [enough_entry, insufficient_entry, unknown_entry, base_info,
            hg, htl, hav]
        · simp [enough_entry, insufficient_entry, unknown_entry, base_info,
            hg, htl, hav]
    · simp [enough_entry, insufficient_entry, unknown_entry, hg]

theorem le_diff_trans (a b c : MatchInfo) (hab : le_diff a b = true)
    (hbc : le_diff b c = true) : le_diff a c = true := by
  simp only [le_diff, decide_eq_true_iff] at hab hbc ⊢
  exact le_trans hab hbc

theorem le_diff_total (a b : MatchInfo) : (le_diff a b || le_diff b a) = true := by
  simp only [le_diff, Bool.or_eq_true, decide_eq_true_iff]
  exact le_total _ _

theorem le_unknown_trans (a b c : MatchInfo) (hab : le_unknown a b = true)
    (hbc : le_unknown b c = true) : le_unknown a c = true := by
  simp only [le_unknown, decide_eq_true_iff] at hab hbc ⊢
  rcases hab with h | ⟨h1, h2⟩ <;> rcases hbc with h3 | ⟨h4, h5⟩
  · exact Or.inl (lt_trans h3 h)
  · exact Or.inl (h4 ▸ h)
  · exact Or.inl (h1 ▸ h3)
  · exact Or.inr ⟨h1.trans h4, le_trans h2 h5⟩

theorem le_unknown_total (a b : MatchInfo) :
    (le_unknown a b || le_unknown b a) = true := by
  simp only [le_unknown, Bool.or_eq_true, decide_eq_true_iff]
  rcases lt_trichotomy a.have_amt b.have_amt with h | h | h
  · exact Or.inr (Or.inl h)
  · rcases le_total a.grist_diff b.grist_diff with h2 | h2
    · exact Or.inl (Or.inr ⟨h, h2⟩)
    · exact Or.inr (Or.inr ⟨h.symm, h2⟩)
  · exact Or.inl (Or.inl h)

/-- C1: `find_single_matches` returns exactly the grist-matching stash
yarns, each carrying `grist_diff_pct = |target - grist| / target * 100`,
routed to `enough` when the given target length is met, to `insufficient`
(with `needed` recorded) when it is not, and to `unknown` exactly for the
positively-available yarns when no target length is given; `enough` and
`insufficient` are sorted ascending by `grist_diff_pct` and `unknown` by
descending availability with ties ascending by `grist_diff_pct`. -/
theorem find_single_matches_spec (tg : ℚ) (htg : 0 < tg) (tl : Option ℚ)
    (htl : ∀ v : ℚ, tl = some v → 0 < v) (stash : List StashYarn) :
    (find_single_matches tg tl stash).1.Perm
        (stash.filterMap (enough_entry tg tl)) ∧
    (find_single_matches tg tl stash).2.1.Perm
        (stash.filterMap (insufficient_entry tg tl)) ∧
    (find_single_matches tg tl stash).2.2.Perm
        (stash.filterMap (unknown_entry tg tl)) ∧
    (find_single_matches tg tl stash).1.Pairwise
        (fun a b => a.grist_diff ≤ b.grist_diff) ∧
    (find_single_matches tg tl stash).2.1.Pairwise
        (fun a b => a.grist_diff ≤ b.grist_diff) ∧
    (find_single_matches tg tl stash).2.2.Pairwise
        (fun a b => b.have_amt < a.have_amt ∨
          (a.have_amt = b.have_amt ∧ a.grist_diff ≤ b.grist_diff)) := by
  unfold find_single_matches
  rw [single_scan_eq]
  refine ⟨List.mergeSort_perm _ _, List.mergeSort_perm _ _,
    List.mergeSort_perm _ _, ?_, ?_, ?_⟩
  · exact (List.sorted_mergeSort le_diff_trans le_diff_total _).imp
      (fun h => of_decide_eq_true h)
  · exact (List.sorted_mergeSort le_diff_trans le_diff_total _).imp
      (fun h => of_decide_eq_true h)
  · exact (List.sorted_mergeSort le_unknown_trans le_unknown_total _).imp
      (fun h => of_decide_eq_true h)

/-- A concrete stash yarn used by the witnesses: grist 7.0, 500 yards
available, as in the spec's worked example. -/
def yarn_500 : StashYarn :=
  { name := "Test", grist := 7, available_grams := none,
    available_yards := some 500, color := "Blue" }

/-- C1 witness: `find_single_matches_spec` at target grist 7, target length
400 and the one-yarn stash of the spec's example. -/
theorem find_single_matches_spec_witness :
    (find_single_matches 7 (some 400) [yarn_500]).1.Perm
        ([yarn_500].filterMap (enough_entry 7 (some 400))) ∧
    (find_single_matches 7 (some 400) [yarn_500]).2.1.Perm
        ([yarn_500].filterMap (insufficient_entry 7 (some 400))) ∧
    (find_single_matches 7 (some 400) [yarn_500]).2.2.Perm
        ([yarn_500].filterMap (unknown_entry 7 (some 400))) ∧
    (find_single_matches 7 (some 400) [yarn_500]).1.Pairwise
        (fun a b => a.grist_diff ≤ b.grist_diff) ∧
    (find_single_matches 7 (some 400) [yarn_500]).2.1.Pairwise
        (fun a b => a.grist_diff ≤ b.grist_diff) ∧
    (find_single_matches 7 (some 400) [yarn_500]).2.2.Pairwise
        (fun a b => b.have_amt < a.have_amt ∨
          (a.have_amt = b.have_amt ∧ a.grist_diff ≤ b.grist_diff)) :=
  find_single_matches_spec 7 (by norm_num) (some 400)
    (fun v hv => by cases Option.some.inj hv; norm_num) [yarn_500]

theorem entries_zero_eq_none (tg : ℚ) :
    enough_entry tg (some 0) = enough_entry tg none ∧
    insufficient_entry tg (some 0) = insufficient_entry tg none ∧
    unknown_entry tg (some 0) = unknown_entry tg none := by
  have ht : truthyQ (some 0) = false := by simp [truthyQ]
  have hn : truthyQ none = false := rfl
  refine ⟨funext fun y => ?_, funext fun y => ?_, funext fun y => ?_⟩
  · simp [enough_entry, ht, hn]
  · simp [insufficient_entry, ht, hn]
  · simp [unknown_entry, ht, hn]

/-- C9: a target length of zero behaves exactly like an absent one:
`enough` and `insufficient` are empty, and `unknown` consists exactly of
the grist-matching yarns with positive availability. -/
theorem find_single_matches_zero_target (tg : ℚ) (htg : 0 < tg)
    (stash : List StashYarn) :
    find_single_matches tg (some 0) stash =
        find_single_matches tg none stash ∧
    (find_single_matches tg (some 0) stash).1 = [] ∧
    (find_single_matches tg (some 0) stash).2.1 = [] ∧
    (∀ m : MatchInfo, m ∈ (find_single_matches tg (some 0) stash).2.2 ↔
      ∃ y ∈ stash, grist_matches tg y.grist default_tolerance = true ∧
        0 < availOf y ∧ m = base_info tg y) := by
  obtain ⟨hE, hI, hU⟩ := entries_zero_eq_none tg
  have heq : find_single_matches tg (some 0) stash =
      find_single_matches tg none stash := by
    unfold find_single_matches
    rw [single_scan_eq, single_scan_eq, hE, hI, hU]
  have ht : truthyQ (some 0) = false := by simp [truthyQ]
  refine ⟨heq, ?_, ?_, ?_⟩
  · unfold find_single_matches
    rw [single_scan_eq]
    have : stash.filterMap (enough_entry tg (some 0)) = [] := by
      rw [List.filterMap_eq_nil_iff]
      intro y _
      simp [enough_entry, ht]
    simp [this]
  · unfold find_single_matches
    rw [single_scan_eq]
    have : stash.filterMap (insufficient_entry tg (some 0)) = [] := by
      rw [List.filterMap_eq_nil_iff]
      intro y _
      simp [insufficient_entry, ht]
    simp [this]
  · intro m
    unfold find_single_matches
    rw [single_scan_eq]
    rw [(List.mergeSort_perm _ le_unknown).mem_iff]
    rw [List.mem_filterMap]
    constructor
    · rintro ⟨y, hy, hsome⟩
      rw [unknown_entry] at hsome
      split at hsome
      · next hcond =>
          exact ⟨y, hy, hcond.1, hcond.2.2, (Option.some.inj hsome).symm⟩
      · exact absurd hsome (by simp)
    · rintro ⟨y, hy, hgm, hav, rfl⟩
      refine ⟨y, hy, ?_⟩
      rw [unknown_entry, if_pos ⟨hgm, by simp [ht], hav⟩]

/-- C9 witness: `find_single_matches_zero_target` at target grist 7 and the
concrete one-yarn stash. -/
theorem find_single_matches_zero_target_witness :
    find_single_matches 7 (some 0) [yarn_500] =
        find_single_matches 7 none [yarn_500] ∧
    (find_single_matches 7 (some 0) [yarn_500]).1 = [] ∧
    (find_single_matches 7 (some 0) [yarn_500]).2.1 = [] ∧
    (∀ m : MatchInfo, m ∈ (find_single_matches 7 (some 0) [yarn_500]).2.2 ↔
      ∃ y ∈ [yarn_500], grist_matches 7 y.grist default_tolerance = true ∧
        0 < availOf y ∧ m = base_info 7 y) :=
  find_single_matches_zero_target 7 (by norm_num) [yarn_500]

/-- One entry of the combination result list: the source dict with keys
`yarns`, `combined_grist`, `grist_diff`, `has`, `enough`, `both_enough`
and `shared_color`, with the two-element lists split into `_a`/`_b`
fields. -/
structure ComboEntry where
  yarn_a : StashYarn
  yarn_b : StashYarn
  combined_grist : ℚ
  grist_diff : ℚ
  has_a : ℚ
  has_b : ℚ
  enough_a : Bool
  enough_b : Bool
  both_enough : Bool
  shared_color : String
deriving DecidableEq

/-- Construction of one combo record inside `find_combo_matches`. -/
def mk_combo (tg : ℚ) (tl : Option ℚ) (a b : StashYarn) (combined : ℚ) :
    ComboEntry :=
  { yarn_a := a, yarn_b := b, combined_grist := combined,
    grist_diff := |tg - combined| / tg * 100,
    has_a := availOf a, has_b := availOf b,
    enough_a := if truthyQ tl then decide (tl.getD 0 ≤ availOf a) else true,
    enough_b := if truthyQ tl then decide (tl.getD 0 ≤ availOf b) else true,
    both_enough := if truthyQ tl
      then decide (tl.getD 0 ≤ availOf a) && decide (tl.getD 0 ≤ availOf b)
      else true,
    shared_color := if a.color = "" then b.color else a.color }

/-- The inner loop of `find_combo_matches`: pair `a` against the stash tail,
skipping color or grist failures (`continue`), appending qualifying combos
and breaking once the accumulated list reaches the bound. The Python local
`combined` (an optional float) is modelled through `truthyQ`/`getD`. -/
def combo_inner (tg : ℚ) (tl : Option ℚ) (bound : Nat) (a : StashYarn) :
    List StashYarn → List ComboEntry → List ComboEntry
  | [], combos => combos
  | b :: rest, combos =>
    if ¬ fuzzy_color_match a.color b.color then
      combo_inner tg tl bound a rest combos
    else if ¬ truthyQ (calculate_combined_grist [some a.grist, some b.grist])
        ∨ ¬ grist_matches tg
            ((calculate_combined_grist [some a.grist, some b.grist]).getD 0)
            default_tolerance then
      combo_inner tg tl bound a rest combos
    else if bound ≤ (combos ++ [mk_combo tg tl a b
        ((calculate_combined_grist [some a.grist, some b.grist]).getD 0)]).length
      then combos ++ [mk_combo tg tl a b
        ((calculate_combined_grist [some a.grist, some b.grist]).getD 0)]
    else combo_inner tg tl bound a rest
      (combos ++ [mk_combo tg tl a b
        ((calculate_combined_grist [some a.grist, some b.grist]).getD 0)])

/-- The outer loop of `find_combo_matches`, with the early exit once the
bound (twice `max_combos`) has been reached after an inner pass. -/
def combo_scan (tg : ℚ) (tl : Option ℚ) (bound : Nat) :
    List StashYarn → List ComboEntry → List ComboEntry
  | [], combos => combos
  | a :: rest, combos =>
    if bound ≤ (combo_inner tg tl bound a rest combos).length then
      combo_inner tg tl bound a rest combos
    else combo_scan tg tl bound rest (combo_inner tg tl bound a rest combos)

/-- Sort comparator of `find_combo_matches`: the Python tuple key
`(not both_enough, grist_diff)` in ascending order. -/
def le_combo (a b : ComboEntry) : Bool :=
  decide ((a.both_enough = true ∧ b.both_enough = false) ∨
    (a.both_enough = b.both_enough ∧ a.grist_diff ≤ b.grist_diff))

/-- `find_combo_matches` from `yarn_matcher.py`: bounded pair scan, sort by
sufficiency then grist closeness, truncate to `max_combos`. -/
def find_combo_matches (tg : ℚ) (tl : Option ℚ) (stash : List StashYarn)
    (max_combos : Nat) : List ComboEntry :=
  ((combo_scan tg tl (max_combos * 2) stash []).mergeSort le_combo).take
    max_combos

theorem truthyQ_eq_some {o : Option ℚ} (h : truthyQ o = true) :
    o = some (o.getD 0) ∧ ¬ o.getD 0 = 0 := by
  cases o with
  | none => simp [truthyQ] at h
  | some v =>
    refine ⟨rfl, ?_⟩
    simpa [truthyQ] using h

theorem combo_inner_mem (tg : ℚ) (tl : Option ℚ) (bound : Nat)
    (P : ComboEntry → Prop)
    (hmk : ∀ (a b : StashYarn) (combined : ℚ),
      fuzzy_color_match a.color b.color = true →
      calculate_combined_grist [some a.grist, some b.grist] = some combined →
      ¬ combined = 0 → grist_matches tg combined default_tolerance = true →
      P (mk_combo tg tl a b combined))
    (a : StashYarn) :
    ∀ (rest : List StashYarn) (combos : List ComboEntry),
      (∀ c ∈ combos, P c) →
      ∀ c ∈ combo_inner tg tl bound a rest combos, P c := by
  intro rest
  induction rest with
  | nil =>
    intro combos hc c hmem
    simp only [combo_inner] at hmem
    exact hc c hmem
  | cons b rest ih =>
    intro combos hc c hmem
    simp only [combo_inner] at hmem
    by_cases hfz : fuzzy_color_match a.color b.color = true
    · rw [if_neg (not_not_intro hfz)] at hmem
      by_cases hok :
          ¬ truthyQ (calculate_combined_grist [some a.grist, some b.grist]) = true
          ∨ ¬ grist_matches tg
              ((calculate_combined_grist [some a.grist, some b.grist]).getD 0)
              default_tolerance = true
      · rw [if_pos hok] at hmem
        exact ih combos hc c hmem
      · rw [if_neg hok] at hmem
        push_neg at hok
        obtain ⟨hsome, hne⟩ := truthyQ_eq_some hok.1
        have hP : P (mk_combo tg tl a b
            ((calculate_combined_grist [some a.grist, some b.grist]).getD 0)) :=
          hmk a b _ hfz hsome hne hok.2
        have hext : ∀ x ∈ combos ++ [mk_combo tg tl a b
            ((calculate_combined_grist [some a.grist, some b.grist]).getD 0)],
            P x := by
          intro x hx
          rcases List.mem_append.mp hx with h | h
          · exact hc x h
          · rw [List.mem_singleton.mp h]
            exact hP
        by_cases hstop : bound ≤ (combos ++ [mk_combo tg tl a b
            ((calculate_combined_grist [some a.grist, some b.grist]).getD 0)]).length
        · rw [if_pos hstop] at hmem
          exact hext c hmem
        · rw [if_neg hstop] at hmem
          exact ih _ hext c hmem
    · rw [if_pos hfz] at hmem
      exact ih combos hc c hmem

theorem combo_scan_mem (tg : ℚ) (tl : Option ℚ) (bound : Nat)
    (P : ComboEntry → Prop)
    (hmk : ∀ (a b : StashYarn) (combined : ℚ),
      fuzzy_color_match a.color b.color = true →
      calculate_combined_grist [some a.grist, some b.grist] = some combined →
      ¬ combined = 0 → grist_matches tg combined default_tolerance = true →
      P (mk_combo tg tl a b combined)) :
    ∀ (stash : List StashYarn) (combos : List ComboEntry),
      (∀ c ∈ combos, P c) →
      ∀ c ∈ combo_scan tg tl bound stash combos, P c := by
  intro stash
  induction stash with
  | nil =>
    intro combos hc c hmem
    simp only [combo_scan] at hmem
    exact hc c hmem
  | cons a rest ih =>
    intro combos hc c hmem
    simp only [combo_scan] at hmem
    have hinner := combo_inner_mem tg tl bound P hmk a rest combos hc
    by_cases hstop : bound ≤ (combo_inner tg tl bound a rest combos).length
    · rw [if_pos hstop] at hmem
      exact hinner c hmem
    · rw [if_neg hstop] at hmem
      exact ih _ hinner c hmem

theorem find_combo_matches_mem (tg : ℚ) (tl : Option ℚ)
    (stash : List StashYarn) (max_combos : Nat)
    (P : ComboEntry → Prop)
    (hmk : ∀ (a b : StashYarn) (combined : ℚ),
      fuzzy_color_match a.color b.color = true →
      calculate_combined_grist [some a.grist, some b.grist] = some combined →
      ¬ combined = 0 → grist_matches tg combined default_tolerance = true →
      P (mk_combo tg tl a b combined)) :
    ∀ c ∈ find_combo_matches tg tl stash max_combos, P c := by
  intro c hc
  have h1 : c ∈ (combo_scan tg tl (max_combos * 2) stash []).mergeSort le_combo :=
    (List.take_sublist _ _).subset hc
  have h2 : c ∈ combo_scan tg tl (max_combos * 2) stash [] :=
    (List.mergeSort_perm _ le_combo).mem_iff.mp h1
  exact combo_scan_mem tg tl (max_combos * 2) P hmk stash []
    (fun x hx => absurd hx (List.not_mem_nil x)) c h2

theorem le_combo_trans (a b c : ComboEntry) (hab : le_combo a b = true)
    (hbc : le_combo b c = true) : le_combo a c = true := by
  simp only [le_combo, decide_eq_true_iff] at hab hbc ⊢
  rcases hab with ⟨ha, hb⟩ | ⟨hab2, hd⟩
  · rcases hbc with ⟨hb2, hc⟩ | ⟨hbc2, hd2⟩
    · rw [hb] at hb2
      exact absurd hb2 (by simp)
    · exact Or.inl ⟨ha, hbc2 ▸ hb⟩
  · rcases hbc with ⟨hb2, hc⟩ | ⟨hbc2, hd2⟩
    · exact Or.inl ⟨hab2.trans hb2, hc⟩
    · exact Or.inr ⟨hab2.trans hbc2, le_trans hd hd2⟩

theorem le_combo_total (a b : ComboEntry) :
    (le_combo a b || le_combo b a) = true := by
  simp only [le_combo, Bool.or_eq_true, decide_eq_true_iff]
  cases ha : a.both_enough <;> cases hb : b.both_enough
  · rcases le_total a.grist_diff b.grist_diff with h | h
    · exact Or.inl (Or.inr ⟨rfl, h⟩)
    · exact Or.inr (Or.inr ⟨rfl, h⟩)
  · exact Or.inr (Or.inl ⟨rfl, rfl⟩)
  · exact Or.inl (Or.inl ⟨rfl, rfl⟩)
  · rcases le_total a.grist_diff b.grist_diff with h | h
    · exact Or.inl (Or.inr ⟨rfl, h⟩)
    · exact Or.inr (Or.inr ⟨rfl, h⟩)

/-- C2: every combo of `find_combo_matches` pairs color-similar yarns whose
harmonic combined grist passes the tolerance test against the target; the
output puts the `both_enough` combos first, then ascends by
`grist_diff_pct`, and has at most `max_results` elements. -/
theorem find_combo_matches_spec (tg : ℚ) (htg : 0 < tg) (tl : Option ℚ)
    (stash : List StashYarn) (max_combos : Nat) :
    (∀ c ∈ find_combo_matches tg tl stash max_combos,
      fuzzy_color_match c.yarn_a.color c.yarn_b.color = true ∧
      calculate_combined_grist [some c.yarn_a.grist, some c.yarn_b.grist] =
        some c.combined_grist ∧
      grist_matches tg c.combined_grist default_tolerance = true) ∧
    (find_combo_matches tg tl stash max_combos).Pairwise
      (fun a b => (a.both_enough = true ∧ b.both_enough = false) ∨
        (a.both_enough = b.both_enough ∧ a.grist_diff ≤ b.grist_diff)) ∧
    (find_combo_matches tg tl stash max_combos).length ≤ max_combos := by
  refine ⟨?_, ?_, ?_⟩
  · exact find_combo_matches_mem tg tl stash max_combos _
      (fun a b combined hfz hcg hne hgm => ⟨hfz, hcg, hgm⟩)
  · have hms := (List.sorted_mergeSort le_combo_trans le_combo_total
      (combo_scan tg tl (max_combos * 2) stash [])).imp
      (fun h => of_decide_eq_true h)
    unfold find_combo_matches
    exact List.Pairwise.sublist (List.take_sublist _ _) hms
  · unfold find_combo_matches
    exact List.length_take_le _ _

/-- Concrete stash yarn for the combo witnesses: grist 14, color Red. -/
def yarn_red_a : StashYarn :=
  { name := "Red A", grist := 14, available_grams := none,
    available_yards := some 300, color := "Red" }

/-- Concrete stash yarn for the combo witnesses: grist 14, color Red
Heather. -/
def yarn_red_b : StashYarn :=
  { name := "Red B", grist := 14, available_grams := none,
    available_yards := some 200, color := "Red Heather" }

theorem combo_example_eval :
    find_combo_matches 7 none [yarn_red_a, yarn_red_b] 10 =
      [mk_combo 7 none yarn_red_a yarn_red_b 7] := by
  have hfz : fuzzy_color_match yarn_red_a.color yarn_red_b.color = true := by
    decide
  have hcg : calculate_combined_grist [some yarn_red_a.grist, some yarn_red_b.grist]
      = some 7 := by
    show calculate_combined_grist [some (14 : ℚ), some 14] = some 7
    have hv : valid_grists [some (14 : ℚ), some 14] = [14, 14] := by
      simp only [valid_grists, List.filterMap_cons, List.filterMap_nil]
      norm_num
    rw [calculate_combined_grist, hv, if_neg (List.cons_ne_nil _ _)]
    norm_num
  have hgm : grist_matches 7
      ((calculate_combined_grist [some yarn_red_a.grist, some yarn_red_b.grist]).getD 0)
      default_tolerance = true := by
    rw [hcg]
    show grist_matches 7 7 default_tolerance = true
    rw [grist_matches, if_neg (by norm_num), decide_eq_true_iff]
    unfold default_tolerance
    norm_num
  have h7t : truthyQ (some (7 : ℚ)) = true := by
    norm_num [truthyQ]
  have h77 : grist_matches 7 7 default_tolerance = true := by
    rw [grist_matches, if_neg (by norm_num), decide_eq_true_iff]
    unfold default_tolerance
    norm_num
  unfold find_combo_matches
  simp only [combo_scan, combo_inner, hfz, hcg, Option.getD_some, h7t, h77,
    not_true, or_self, if_false, ite_false, List.nil_append,
    List.length_singleton, List.singleton_append]
  norm_num

/-- C10: when the target length is absent or zero, every emitted combo has
both per-yarn sufficiency flags true and `both_enough` true, and its
`shared_color` is `yarn_a`'s color when that string is non-empty, else
`yarn_b`'s color. -/
theorem find_combo_matches_no_target (tg : ℚ) (htg : 0 < tg) (tl : Option ℚ)
    (htl : tl = none ∨ tl = some 0) (stash : List StashYarn)
    (max_combos : Nat) :
    ∀ c ∈ find_combo_matches tg tl stash max_combos,
      c.enough_a = true ∧ c.enough_b = true ∧ c.both_enough = true ∧
      c.shared_color =
        (if c.yarn_a.color = "" then c.yarn_b.color else c.yarn_a.color) := by
  have ht : truthyQ tl = false := by
    rcases htl with rfl | rfl <;> simp [truthyQ]
  exact find_combo_matches_mem tg tl stash max_combos _
    (fun a b combined hfz hcg hne hgm => by simp [mk_combo, ht])

/-- C10 witness: `find_combo_matches_no_target` at target grist 7 with no
target length, on the two-red-yarns stash whose single emitted combo is
`mk_combo 7 none yarn_red_a yarn_red_b 7`. -/
theorem find_combo_matches_no_target_witness :
    (mk_combo 7 none yarn_red_a yarn_red_b 7).enough_a = true ∧
    (mk_combo 7 none yarn_red_a yarn_red_b 7).enough_b = true ∧
    (mk_combo 7 none yarn_red_a yarn_red_b 7).both_enough = true ∧
    (mk_combo 7 none yarn_red_a yarn_red_b 7).shared_color =
      (if (mk_combo 7 none yarn_red_a yarn_red_b 7).yarn_a.color = ""
       then (mk_combo 7 none yarn_red_a yarn_red_b 7).yarn_b.color
       else (mk_combo 7 none yarn_red_a yarn_red_b 7).yarn_a.color) :=
  find_combo_matches_no_target 7 (by norm_num) none (Or.inl rfl)
    [yarn_red_a, yarn_red_b] 10 (mk_combo 7 none yarn_red_a yarn_red_b 7)
    (by rw [combo_example_eval]; exact List.mem_singleton.mpr rfl)

/-- C2 witness: `find_combo_matches_spec` at target grist 7 on the concrete
two-yarn stash. -/
theorem find_combo_matches_spec_witness :
    (∀ c ∈ find_combo_matches 7 none [yarn_red_a, yarn_red_b] 10,
      fuzzy_color_match c.yarn_a.color c.yarn_b.color = true ∧
      calculate_combined_grist [some c.yarn_a.grist, some c.yarn_b.grist] =
        some c.combined_grist ∧
      grist_matches 7 c.combined_grist default_tolerance = true) ∧
    (find_combo_matches 7 none [yarn_red_a, yarn_red_b] 10).Pairwise
      (fun a b => (a.both_enough = true ∧ b.both_enough = false) ∨
        (a.both_enough = b.both_enough ∧ a.grist_diff ≤ b.grist_diff)) ∧
    (find_combo_matches 7 none [yarn_red_a, yarn_red_b] 10).length ≤ 10 :=
  find_combo_matches_spec 7 (by norm_num) none [yarn_red_a, yarn_red_b] 10

/-- The distinct-position pairs scanned by `find_combo_matches`, in loop
order: `(stash[i], stash[j])` for all positions `i < j`. -/
def stash_pairs : List StashYarn → List (StashYarn × StashYarn)
  | [] => []
  | a :: rest => (rest.map fun b => (a, b)) ++ stash_pairs rest

/-- The two paired yarns of a combo, in emission order. -/
def combo_pair (c : ComboEntry) : StashYarn × StashYarn :=
  (c.yarn_a, c.yarn_b)

theorem combo_inner_pairs (tg : ℚ) (tl : Option ℚ) (bound : Nat)
    (a : StashYarn) :
    ∀ (rest : List StashYarn) (combos : List ComboEntry),
      ∃ l : List (StashYarn × StashYarn),
        (combo_inner tg tl bound a rest combos).map combo_pair =
          combos.map combo_pair ++ l ∧
        l.Sublist (rest.map fun b => (a, b)) := by
  intro rest
  induction rest with
  | nil =>
    intro combos
    exact ⟨[], by simp [combo_inner], List.nil_sublist _⟩
  | cons b rest ih =>
    intro combos
    simp only [combo_inner, List.map_cons]
    by_cases hfz : fuzzy_color_match a.color b.color = true
    · rw [if_neg (not_not_intro hfz)]
      by_cases hok :
          ¬ truthyQ (calculate_combined_grist [some a.grist, some b.grist]) = true
          ∨ ¬ grist_matches tg
              ((calculate_combined_grist [some a.grist, some b.grist]).getD 0)
              default_tolerance = true
      · rw [if_pos hok]
        obtain ⟨l, hl, hsub⟩ := ih combos
        exact ⟨l, hl, hsub.cons _⟩
      · rw [if_neg hok]
        by_cases hstop : bound ≤ (combos ++ [mk_combo tg tl a b
            ((calculate_combined_grist [some a.grist, some b.grist]).getD 0)]).length
        · rw [if_pos hstop]
          refine ⟨[(a, b)], ?_, (List.nil_sublist _).cons₂ (a, b)⟩
          rw [List.map_append]
          rfl
        · rw [if_neg hstop]
          obtain ⟨l, hl, hsub⟩ := ih (combos ++ [mk_combo tg tl a b
            ((calculate_combined_grist [some a.grist, some b.grist]).getD 0)])
          refine ⟨(a, b) :: l, ?_, hsub.cons₂ (a, b)⟩
          rw [hl, List.map_append, List.append_assoc]
          rfl
    · rw [if_pos hfz]
      obtain ⟨l, hl, hsub⟩ := ih combos
      exact ⟨l, hl, hsub.cons _⟩

theorem combo_scan_pairs (tg : ℚ) (tl : Option ℚ) (bound : Nat) :
    ∀ (stash : List StashYarn) (combos : List ComboEntry),
      ∃ l : List (StashYarn × StashYarn),
        (combo_scan tg tl bound stash combos).map combo_pair =
          combos.map combo_pair ++ l ∧
        l.Sublist (stash_pairs stash) := by
  intro stash
  induction stash with
  | nil =>
    intro combos
    exact ⟨[], by simp [combo_scan], List.nil_sublist _⟩
  | cons a rest ih =>
    intro combos
    simp only [combo_scan, stash_pairs]
    obtain ⟨l1, hl1, hsub1⟩ := combo_inner_pairs tg tl bound a rest combos
    by_cases hstop : bound ≤ (combo_inner tg tl bound a rest combos).length
    · rw [if_pos hstop]
      exact ⟨l1, hl1, hsub1.trans (List.sublist_append_left _ _)⟩
    · rw [if_neg hstop]
      obtain ⟨l2, hl2, hsub2⟩ := ih (combo_inner tg tl bound a rest combos)
      refine ⟨l1 ++ l2, ?_, hsub1.append hsub2⟩
      rw [hl2, hl1, List.append_assoc]

theorem mem_stash_pairs {p : StashYarn × StashYarn} :
    ∀ {stash : List StashYarn}, p ∈ stash_pairs stash →
      ∃ i j : Nat, i < j ∧ stash[i]? = some p.1 ∧ stash[j]? = some p.2 := by
  intro stash
  induction stash with
  | nil =>
    intro h
    simp [stash_pairs] at h
  | cons a rest ih =>
    intro h
    simp only [stash_pairs] at h
    rcases List.mem_append.mp h with h1 | h1
    · obtain ⟨b, hb, hp⟩ := List.mem_map.mp h1
      obtain ⟨j, hj⟩ := List.mem_iff_getElem?.mp hb
      refine ⟨0, j + 1, Nat.succ_pos j, ?_, ?_⟩
      · rw [← hp]
        simp
      · rw [← hp]
        simpa using hj
    · obtain ⟨i, j, hij, hi, hj⟩ := ih h1
      exact ⟨i + 1, j + 1, Nat.succ_lt_succ hij, by simpa using hi,
        by simpa using hj⟩

/-- C3: the pairs emitted by `find_combo_matches` form, with multiplicity, a
sub-multiset of the strict upper-triangle position pairs of the stash: no
yarn is ever paired with itself by stash position (every emitted combo comes
from positions i < j) and no unordered position pair is emitted twice. -/
theorem find_combo_matches_pairs (tg : ℚ) (tl : Option ℚ)
    (stash : List StashYarn) (max_combos : Nat) (hs : 2 ≤ stash.length) :
    ((find_combo_matches tg tl stash max_combos).map combo_pair).Subperm
        (stash_pairs stash) ∧
    (∀ c ∈ find_combo_matches tg tl stash max_combos,
      ∃ i j : Nat, i < j ∧ stash[i]? = some c.yarn_a ∧
        stash[j]? = some c.yarn_b) := by
  obtain ⟨l, hl, hsub⟩ := combo_scan_pairs tg tl (max_combos * 2) stash []
  rw [List.map_nil, List.nil_append] at hl
  have hscan : ((combo_scan tg tl (max_combos * 2) stash []).map
      combo_pair).Subperm (stash_pairs stash) := by
    rw [hl]
    exact hsub.subperm
  have hperm : (((combo_scan tg tl (max_combos * 2) stash []).mergeSort
      le_combo).map combo_pair).Perm
      ((combo_scan tg tl (max_combos * 2) stash []).map combo_pair) :=
    (List.mergeSort_perm _ le_combo).map _
  have htake : ((find_combo_matches tg tl stash max_combos).map
      combo_pair).Sublist
      (((combo_scan tg tl (max_combos * 2) stash []).mergeSort
        le_combo).map combo_pair) := by
    unfold find_combo_matches
    rw [List.map_take]
    exact List.take_sublist _ _
  have hall : ((find_combo_matches tg tl stash max_combos).map
      combo_pair).Subperm (stash_pairs stash) :=
    (htake.subperm.trans hperm.subperm).trans hscan
  refine ⟨hall, fun c hc => ?_⟩
  have hmem : combo_pair c ∈ stash_pairs stash :=
    hall.subset (List.mem_map_of_mem combo_pair hc)
  exact mem_stash_pairs hmem

/-- C3 witness: `find_combo_matches_pairs` at target grist 7 on the
concrete two-yarn stash. -/
theorem find_combo_matches_pairs_witness :
    ((find_combo_matches 7 none [yarn_red_a, yarn_red_b] 10).map
        combo_pair).Subperm (stash_pairs [yarn_red_a, yarn_red_b]) ∧
    (∀ c ∈ find_combo_matches 7 none [yarn_red_a, yarn_red_b] 10,
      ∃ i j : Nat, i < j ∧ [yarn_red_a, yarn_red_b][i]? = some c.yarn_a ∧
        [yarn_red_a, yarn_red_b][j]? = some c.yarn_b) :=
  find_combo_matches_pairs 7 none [yarn_red_a, yarn_red_b] 10 (by simp)

/-- C7: an empty stash yields three empty lists from `find_single_matches`
and an empty list from `find_combo_matches`, for every target grist, target
length and result bound; totality of the Lean functions models that neither
matcher raises on sparse input. -/
theorem matchers_empty_stash (tg : ℚ) (tl : Option ℚ) (max_combos : Nat) :
    find_single_matches tg tl [] = ([], [], []) ∧
    find_combo_matches tg tl [] max_combos = [] := by
  constructor
  · unfold find_single_matches
    simp [single_scan]
  · unfold find_combo_matches
    simp [combo_scan]

/-- One yarn requirement from the pattern input: the fields of each entry
of `pattern_data['yarns']` that `generate_html` reads for matching. -/
structure Requirement where
  yarn_name : String
  grist_yd_per_g : Option ℚ
  yards_needed : Option ℚ

/-- Per-requirement outcome of the report loop of `generate_html`: either
the explicit cannot-match banner or the results of both matchers. -/
inductive ReqMatch where
  | cannot_match (yarn_name : String)
  | matched (yarn_name : String)
      (singles : List MatchInfo × List MatchInfo × List MatchInfo)
      (combos : List ComboEntry)

/-- The per-requirement loop of `generate_html` (lines 364-374), eliding the
HTML rendering: a requirement whose target grist is falsy (absent or zero)
gets the cannot-match outcome and processing continues; every other
requirement runs `find_single_matches` and `find_combo_matches` (the latter
with its default `max_combos = 10`). -/
def match_requirements (stash : List StashYarn) (yarns : List Requirement) :
    List ReqMatch :=
  yarns.map fun y =>
    match y.grist_yd_per_g with
    | none => ReqMatch.cannot_match y.yarn_name
    | some tgv =>
      if tgv = 0 then ReqMatch.cannot_match y.yarn_name
      else ReqMatch.matched y.yarn_name
        (find_single_matches tgv y.yards_needed stash)
        (find_combo_matches tgv y.yards_needed stash 10)

/-- C8: the orchestration reports a requirement lacking a target grist as an
explicit cannot-match outcome (never skipping or failing the loop: the
output has one outcome per requirement) and still runs the single-yarn and
combination matchers for every requirement that has a nonzero target
grist. -/
theorem match_requirements_spec (stash : List StashYarn)
    (yarns : List Requirement) :
    (match_requirements stash yarns).length = yarns.length ∧
    ∀ (i : Nat) (r : Requirement), yarns[i]? = some r →
      (r.grist_yd_per_g = none →
        (match_requirements stash yarns)[i]? =
          some (ReqMatch.cannot_match r.yarn_name)) ∧
      (∀ tgv : ℚ, r.grist_yd_per_g = some tgv → ¬ tgv = 0 →
        (match_requirements stash yarns)[i]? =
          some (ReqMatch.matched r.yarn_name
            (find_single_matches tgv r.yards_needed stash)
            (find_combo_matches tgv r.yards_needed stash 10))) := by
  constructor
  · exact List.length_map _ _
  · intro i r hr
    constructor
    · intro hnone
      unfold match_requirements
      rw [List.getElem?_map, hr]
      simp [hnone]
    · intro tgv htgv hne
      unfold match_requirements
      rw [List.getElem?_map, hr]
      simp [htgv, hne]

/-- Concrete requirement without a target grist, for the C8 witness. -/
def req_missing : Requirement :=
  { yarn_name := "Main", grist_yd_per_g := none, yards_needed := some 100 }

/-- Concrete requirement with target grist 2, for the C8 witness. -/
def req_good : Requirement :=
  { yarn_name := "Contrast", grist_yd_per_g := some 2, yards_needed := none }

/-- C8 witness: `match_requirements_spec` on a two-requirement pattern, one
requirement lacking grist and one with grist 2: the first is reported
cannot-match and the second still runs both matchers. -/
theorem match_requirements_spec_witness :
    (match_requirements [] [req_missing, req_good])[0]? =
      some (ReqMatch.cannot_match "Main") ∧
    (match_requirements [] [req_missing, req_good])[1]? =
      some (ReqMatch.matched "Contrast" (find_single_matches 2 none [])
        (find_combo_matches 2 none [] 10)) :=
  ⟨((match_requirements_spec [] [req_missing, req_good]).2 0 req_missing
      rfl).1 rfl,
   ((match_requirements_spec [] [req_missing, req_good]).2 1 req_good
      rfl).2 2 rfl (by norm_num)⟩

end YarnMatcher
